import Mathlib

/-!
Verification of the AI Context Assembly & Resilient Completion Pipeline of the
`activemind` ACT-workbook server.

The development shallowly embeds the pipeline code:

* `server/aiService.ts` — `robustOpenAICall` (timeout / retry / backoff / JSON
  contract handling), `processConversation` (crisis interception),
  `analyzeSentiment`, `generateContextualQuestions`, `answerMaterialQuestion`,
  `analyzeProgressInsights` (result projection);
* `server/routes.ts` — `buildTherapeuticContext` (bounded, privacy-minimized
  context aggregation);
* `server/storage.ts` — the shapes returned by `getUserProgress` and
  `getChapterProgress` that feed the aggregator.

JavaScript runtime values are modelled by the dynamic type `JsonV`; the
external chat-completion service is an oracle `Nat → ApiResult` giving the
outcome of the n-th physical call, and `Math.random()*1000` jitter is an
arbitrary rational-valued function constrained to `[0, 1000)`.
-/

namespace ActiveMind

/-- JSON-like dynamic values modelling JavaScript runtime values, including
`undefined` (the value of a missing property read). -/
inductive JsonV : Type where
  | str (s : String)
  | num (q : ℚ)
  | bool (b : Bool)
  | null
  | undefined
  | arr (items : List JsonV)
  | obj (fields : List (String × JsonV))

/-- First-match association lookup: JavaScript plain objects have at most one
own property per key, and property reads return the stored value. -/
def lookupField (fields : List (String × JsonV)) (k : String) : Option JsonV :=
  (fields.find? (fun p => p.1 == k)).map Prod.snd

/-- JavaScript property read `v[k]`: `undefined` when the key is absent or the
value is not an object. -/
def getF (v : JsonV) (k : String) : JsonV :=
  match v with
  | .obj fields => (lookupField fields k).getD .undefined
  | _ => .undefined

/-- Object-literal update `{...o, k: v}`: an existing key keeps its position
and is overwritten, a new key is appended (JavaScript spread semantics). -/
def setField (fields : List (String × JsonV)) (k : String) (v : JsonV) :
    List (String × JsonV) :=
  if fields.any (fun p => p.1 == k) then
    fields.map (fun p => if p.1 == k then (k, v) else p)
  else fields ++ [(k, v)]

/-- The key list of an object value (empty for non-objects). -/
def objKeys : JsonV → List String
  | .obj fields => fields.map Prod.fst
  | _ => []

/-- `some` length for array values, `none` otherwise: a value that is not an
array has no entry count. -/
def arrLength : JsonV → Option Nat
  | .arr items => some items.length
  | _ => none

/-- Char-list prefix test, auxiliary for substring containment. -/
def charsStartWith : List Char → List Char → Bool
  | [], _ => true
  | _ :: _, [] => false
  | a :: as, b :: bs => a == b && charsStartWith as bs

/-- Does `hay` contain `needle` as a contiguous run? -/
def charsHaveSub (needle : List Char) : List Char → Bool
  | [] => charsStartWith needle []
  | c :: cs => charsStartWith needle (c :: cs) || charsHaveSub needle cs

/-- JavaScript `hay.includes(needle)`: substring containment. -/
def strIncludes (hay needle : String) : Bool :=
  charsHaveSub needle.toList hay.toList

/-- JavaScript `s.toLowerCase()` restricted to the per-character lowering that
the ASCII crisis keywords need. -/
def jsToLower (s : String) : String :=
  ⟨s.data.map Char.toLower⟩

/-- JavaScript `s.substring(0, n)`: the first `n` characters (the whole string
when it is shorter). -/
def jsSubstringTo (s : String) (n : Nat) : String :=
  ⟨s.data.take n⟩

/-- JavaScript `arr.slice(-n)`: the last `n` elements in order (the whole list
when it is shorter). -/
def jsSliceLast (n : Nat) (l : List α) : List α :=
  l.drop (l.length - n)

/-!
## Resilient completion client — `robustOpenAICall` (aiService.ts lines 36-137)

One physical call to `openai.chat.completions.create` is summarized by its
observable outcome `ApiResult`; the n-th call of an invocation gets outcome
`api n`.  The `parseResult` callback (respectively the bare `JSON.parse` when
no callback is supplied, or the identity for non-JSON calls) is summarized by
`handle : String → Option α`, `none` meaning it threw.
-/

/-- Outcome of one raw call to the external chat-completion service. -/
inductive ApiResult : Type where
  /-- the request resolved and `choices[0]?.message?.content` is `s`
  (the empty string is falsy and triggers the no-content error). -/
  | content (s : String)
  /-- the request resolved but `choices[0]?.message?.content` is absent. -/
  | noChoice
  /-- the abort controller fired: an `AbortError` (timeout). -/
  | abortTimeout
  /-- the request rejected with an error whose message does not contain
  `"401"` (network fault, 5xx, ...). -/
  | transient (msg : String)
  /-- the request rejected with an error whose message contains `"401"`
  (authentication / authorization failure). -/
  | auth
deriving DecidableEq

/-- The failure surfaced by `robustOpenAICall` to its caller, or wrapped by a
caller's own catch block (`opFailed`). -/
inductive AiErr : Type where
  /-- the original auth error, rethrown without retrying. -/
  | authError
  /-- `Error("Invalid AI response format after all retries")`. -/
  | invalidFormat
  /-- `Error("No content received from AI")` as the last error. -/
  | noContent
  /-- an `AbortError` as the last error. -/
  | timeout
  /-- a generic error message as the last error. -/
  | transientMsg (msg : String)
  /-- `Error("All OpenAI call attempts failed")` (no attempt recorded an
  error). -/
  | allFailed
  /-- an error rethrown by a wrapper's catch block with a fixed message. -/
  | opFailed (msg : String)
deriving DecidableEq

/-- Observable outcome of one `robustOpenAICall` invocation: final result,
number of physical calls to the external service, and the backoff delays
(milliseconds) inserted between consecutive attempts, in order. -/
structure RunOut (α : Type) where
  result : Except AiErr α
  calls : Nat
  delays : List ℚ

/-- `Math.min(1000 * Math.pow(2, attempt) + Math.random() * 1000, 5000)`
(aiService.ts line 130); the jitter drawn at attempt `attempt` is
`jitter attempt ∈ [0, 1000)`. -/
def backoffDelay (jitter : Nat → ℚ) (attempt : Nat) : ℚ :=
  min (1000 * 2 ^ attempt + jitter attempt) 5000

/-- Classification of a single loop iteration of `robustOpenAICall`, before
the retry decision: the attempt either returns a value, hits the rethrown
auth error, lands in the catch block with error `e`, or fails the
`parseResult` / `JSON.parse` step. -/
inductive StepOut (α : Type) where
  | okStep (v : α)
  | authStop
  | caught (e : AiErr)
  | parseFail
deriving DecidableEq

/-- The body of one attempt (aiService.ts lines 60-126, minus the retry
decision): issue call `attempt`, check content truthiness, then run the
parse step when one is required. -/
def stepOutcome (api : Nat → ApiResult) (handle : String → Option α)
    (attempt : Nat) : StepOut α :=
  match api attempt with
  | .auth => .authStop
  | .noChoice => .caught .noContent
  | .abortTimeout => .caught .timeout
  | .transient msg => .caught (.transientMsg msg)
  | .content s =>
    if s.isEmpty then .caught .noContent
    else
      match handle s with
      | some v => .okStep v
      | none => .parseFail

/-- The retry decision applied to one attempt outcome (aiService.ts lines
86-133): `rest` continues the loop at the next attempt with the given
`lastError`.  A caught error backs off and retries only when
`attempt < retries`; a parse failure retries with neither backoff nor a
`lastError` update (the `continue` path), except at the final attempt where
the invalid-format error surfaces. -/
def robustStep (jitter : Nat → ℚ) (retries attempt : Nat)
    (rest : Option AiErr → RunOut α) (lastErr : Option AiErr) :
    StepOut α → RunOut α
  | .okStep v => ⟨.ok v, 1, []⟩
  | .authStop => ⟨.error .authError, 1, []⟩
  | .caught e =>
    if attempt < retries then
      let r := rest (some e)
      ⟨r.result, r.calls + 1, backoffDelay jitter attempt :: r.delays⟩
    else ⟨.error e, 1, []⟩
  | .parseFail =>
    if attempt = retries then ⟨.error .invalidFormat, 1, []⟩
    else
      let r := rest lastErr
      ⟨r.result, r.calls + 1, r.delays⟩

/-- The retry loop of `robustOpenAICall` (aiService.ts lines 56-134).
`fuel` is the number of loop iterations still allowed (`retries + 1 - attempt`
at every reachable call), `attempt` the current 0-based attempt index,
`lastErr` the current value of the `lastError` variable.  The translation
notes:

* an auth error (`message.includes('401')`) is rethrown at once;
* every other caught error (including the no-content error thrown inside the
  `try`) sets `lastError`, and is followed by a backoff sleep exactly when
  `attempt < retries`;
* a parse failure at `attempt < retries` hits `continue`, skipping the catch
  block: no backoff is inserted and `lastError` is left unchanged;
* a parse failure at `attempt == retries` throws the invalid-format error,
  which the catch re-records as `lastError` and the loop then surfaces;
* when the loop exits, `lastError ?? Error("All OpenAI call attempts failed")`
  is thrown. -/
def robustGo (api : Nat → ApiResult) (jitter : Nat → ℚ) (handle : String → Option α)
    (retries : Nat) : Nat → Nat → Option AiErr → RunOut α
  | 0, _, lastErr => ⟨.error (lastErr.getD .allFailed), 0, []⟩
  | fuel + 1, attempt, lastErr =>
    robustStep jitter retries attempt
      (robustGo api jitter handle retries fuel (attempt + 1)) lastErr
      (stepOutcome api handle attempt)

/-- `robustOpenAICall(messages, {retries, ...})`: run the loop from attempt 0
with `retries + 1` iterations available and `lastError = null`. -/
def robustOpenAICall (api : Nat → ApiResult) (jitter : Nat → ℚ)
    (handle : String → Option α) (retries : Nat) : RunOut α :=
  robustGo api jitter handle retries (retries + 1) 0 none

/-!
## Service wrappers (aiService.ts): crisis interception, sentiment,
contextual questions, material answers, insight projection

`jsParse : String → Option JsonV` summarizes the external `JSON.parse`
builtin (`none` meaning it threw); the shape checks coded in each
`parseResult` callback are translated explicitly.
-/

/-- The `parseResult` shape check shared by the structured modes
(`generateTherapeuticGuidance`, `analyzeProgressInsights`,
`generateContextualQuestions`, ...): parse, then require the named top-level
property to be an array (`!parsed.key || !Array.isArray(parsed.key)`
throws).  An empty array is truthy in JavaScript, hence accepted. -/
def parseNamedArray (jsParse : String → Option JsonV) (key : String)
    (content : String) : Option (List JsonV) :=
  match jsParse content with
  | some parsed =>
    match getF parsed key with
    | .arr items => some items
    | _ => none
  | none => none

/-- The sentiment payload `{ rating, confidence, emotional_state }`. -/
structure Sentiment where
  rating : ℚ
  confidence : ℚ
  emotional_state : String
deriving DecidableEq

/-- The `parseResult` of `analyzeSentiment` (aiService.ts lines 485-491):
parse, then require `rating` and `confidence` to be numbers and
`emotional_state` a string. -/
def parseSentiment (jsParse : String → Option JsonV) (content : String) :
    Option Sentiment :=
  match jsParse content with
  | some parsed =>
    match getF parsed "rating", getF parsed "confidence",
          getF parsed "emotional_state" with
    | .num r, .num c, .str es => some ⟨r, c, es⟩
    | _, _, _ => none
  | none => none

/-- `analyzeSentiment` (aiService.ts lines 465-500): on any failure of the
robust call the catch block returns the fixed default
`{ rating: 3, confidence: 0.5, emotional_state: 'neutral' }`. -/
def analyzeSentiment (api : Nat → ApiResult) (jitter : Nat → ℚ)
    (jsParse : String → Option JsonV) : Sentiment :=
  match (robustOpenAICall api jitter (parseSentiment jsParse) 2).result with
  | .ok s => s
  | .error _ => ⟨3, 1/2, "neutral"⟩

/-- `generateContextualQuestions` (aiService.ts lines 503-567), reduced to its
`questions` array: on any failure the catch block returns
`{ questions: [] }`. -/
def generateContextualQuestions (api : Nat → ApiResult) (jitter : Nat → ℚ)
    (jsParse : String → Option JsonV) : List JsonV :=
  match (robustOpenAICall api jitter (parseNamedArray jsParse "questions") 2).result with
  | .ok qs => qs
  | .error _ => []

/-- `answerMaterialQuestion`'s canned text when the robust call returned an
empty string (`result || ...`, aiService.ts line 614). -/
def answerEmptyFallback : String :=
  "I apologize, but I\x27m having trouble processing your question right now. Could you try rephrasing it or asking about a specific aspect of the material?"

/-- `answerMaterialQuestion`'s canned text returned by its catch block
(aiService.ts line 618). -/
def answerErrorFallback : String :=
  "I apologize, but I\x27m having trouble processing your question right now. Please try again in a moment."

/-- `answerMaterialQuestion` (aiService.ts lines 570-620), reduced to its
`answer` string: a plain-text robust call; on failure the catch block returns
canned apology text. -/
def answerMaterialQuestion (api : Nat → ApiResult) (jitter : Nat → ℚ) : String :=
  match (robustOpenAICall api jitter (fun s => some s) 2).result with
  | .ok s => if s.isEmpty then answerEmptyFallback else s
  | .error _ => answerErrorFallback

/-- The own-property list contributed by a JavaScript object spread `{...x}`:
the fields of an object, nothing for a primitive. -/
def spreadFields : JsonV → List (String × JsonV)
  | .obj fs => fs
  | _ => []

/-- The per-item projection of `analyzeProgressInsights` (aiService.ts lines
296-300): `{ ...i, userId: context.userId, data: { analysis: i.data } }`. -/
def projectInsightItem (userId : String) (item : JsonV) : JsonV :=
  .obj (setField (setField (spreadFields item) "userId" (.str userId)) "data"
    (.obj [("analysis", getF item "data")]))

/-- `analyzeProgressInsights` (aiService.ts lines 254-306): a structured
robust call on the `insights` array, then the identifier-attaching
projection; on failure the catch block rethrows
`Error('Failed to analyze progress insights')`. -/
def analyzeProgressInsights (api : Nat → ApiResult) (jitter : Nat → ℚ)
    (jsParse : String → Option JsonV) (userId : String) :
    Except AiErr (List JsonV) :=
  match (robustOpenAICall api jitter (parseNamedArray jsParse "insights") 2).result with
  | .ok items => .ok (items.map (projectInsightItem userId))
  | .error _ => .error (.opFailed "Failed to analyze progress insights")

/-- JavaScript truthiness, for `x || y` fallbacks: `undefined`, `null`,
`false`, `0` and the empty string are falsy. -/
def jsTruthy : JsonV → Bool
  | .str s => !s.isEmpty
  | .num q => decide (q ≠ 0)
  | .bool b => b
  | .null => false
  | .undefined => false
  | .arr _ => true
  | .obj _ => true

/-- An optional number as the JavaScript value written into a property
(`undefined` when the caller supplied none). -/
def jsonOfOptNat : Option Nat → JsonV
  | some n => .num (n : ℚ)
  | none => .undefined

/-- An optional string as the JavaScript value written into a property
(`undefined` when the caller supplied none). -/
def jsonOfOptStr : Option String → JsonV
  | some s => .str s
  | none => .undefined

/-- The per-item projection of `generateTherapeuticGuidance` (aiService.ts
lines 183-189): `{...g, userId, chapterId, sectionId,
personalizedFor: {context: g.personalizedFor || 'general guidance'}}`. -/
def projectGuidanceItem (userId : String) (chapterId : Option Nat)
    (sectionId : Option String) (g : JsonV) : JsonV :=
  .obj (setField (setField (setField (setField (spreadFields g)
    "userId" (.str userId)) "chapterId" (jsonOfOptNat chapterId))
    "sectionId" (jsonOfOptStr sectionId)) "personalizedFor"
    (.obj [("context",
      if jsTruthy (getF g "personalizedFor") then getF g "personalizedFor"
      else .str "general guidance")]))

/-- `generateTherapeuticGuidance` (aiService.ts lines 140-195): a structured
robust call on the `guidance` array, then the identifier-attaching
projection; on failure the catch block rethrows
`Error('Failed to generate therapeutic guidance')`. -/
def generateTherapeuticGuidance (api : Nat → ApiResult) (jitter : Nat → ℚ)
    (jsParse : String → Option JsonV) (userId : String)
    (chapterId : Option Nat) (sectionId : Option String) :
    Except AiErr (List JsonV) :=
  match (robustOpenAICall api jitter (parseNamedArray jsParse "guidance") 2).result with
  | .ok items => .ok (items.map (projectGuidanceItem userId chapterId sectionId))
  | .error _ => .error (.opFailed "Failed to generate therapeutic guidance")

/-- The per-item projection of `generateReflectionPrompts` (aiService.ts
lines 239-245): `{...p, userId, chapterId, sectionId,
followUpPrompts: p.followUpPrompts}`. -/
def projectPromptItem (userId : String) (chapterId : Option Nat)
    (sectionId : Option String) (p : JsonV) : JsonV :=
  .obj (setField (setField (setField (setField (spreadFields p)
    "userId" (.str userId)) "chapterId" (jsonOfOptNat chapterId))
    "sectionId" (jsonOfOptStr sectionId)) "followUpPrompts"
    (getF p "followUpPrompts"))

/-- `generateReflectionPrompts` (aiService.ts lines 198-251): a structured
robust call on the `prompts` array, then the identifier-attaching
projection; on failure the catch block rethrows
`Error('Failed to generate reflection prompts')`. -/
def generateReflectionPrompts (api : Nat → ApiResult) (jitter : Nat → ℚ)
    (jsParse : String → Option JsonV) (userId : String)
    (chapterId : Option Nat) (sectionId : Option String) :
    Except AiErr (List JsonV) :=
  match (robustOpenAICall api jitter (parseNamedArray jsParse "prompts") 2).result with
  | .ok items => .ok (items.map (projectPromptItem userId chapterId sectionId))
  | .error _ => .error (.opFailed "Failed to generate reflection prompts")

/-- The per-item projection of `generateAdaptiveRecommendations`
(aiService.ts lines 351-357): `{...r, userId, targetChapterId,
targetSectionId, parameters: {adaptation: r.parameters}}`. -/
def projectRecommendationItem (userId : String) (chapterId : Option Nat)
    (sectionId : Option String) (r : JsonV) : JsonV :=
  .obj (setField (setField (setField (setField (spreadFields r)
    "userId" (.str userId)) "targetChapterId" (jsonOfOptNat chapterId))
    "targetSectionId" (jsonOfOptStr sectionId)) "parameters"
    (.obj [("adaptation", getF r "parameters")]))

/-- `generateAdaptiveRecommendations` (aiService.ts lines 309-363): a
structured robust call on the `recommendations` array, then the
identifier-attaching projection; on failure the catch block rethrows
`Error('Failed to generate adaptive recommendations')`. -/
def generateAdaptiveRecommendations (api : Nat → ApiResult) (jitter : Nat → ℚ)
    (jsParse : String → Option JsonV) (userId : String)
    (chapterId : Option Nat) (sectionId : Option String) :
    Except AiErr (List JsonV) :=
  match (robustOpenAICall api jitter (parseNamedArray jsParse "recommendations") 2).result with
  | .ok items => .ok (items.map (projectRecommendationItem userId chapterId sectionId))
  | .error _ => .error (.opFailed "Failed to generate adaptive recommendations")

/-- `generateContextualAssistance` (aiService.ts lines 623-689), reduced to
its `suggestions` array: on any failure the catch block returns
`{ suggestions: [] }`. -/
def generateContextualAssistance (api : Nat → ApiResult) (jitter : Nat → ℚ)
    (jsParse : String → Option JsonV) : List JsonV :=
  match (robustOpenAICall api jitter (parseNamedArray jsParse "suggestions") 2).result with
  | .ok items => items
  | .error _ => []

/-- `generateSessionSummary` (aiService.ts lines 692-726): a plain-text
robust call; an empty result is substituted (`result || ...`) and the catch
block returns the canned `'Session completed successfully.'`. -/
def generateSessionSummary (api : Nat → ApiResult) (jitter : Nat → ℚ) : String :=
  match (robustOpenAICall api jitter (fun s => some s) 2).result with
  | .ok s =>
    if s.isEmpty then "Session completed with meaningful therapeutic engagement."
    else s
  | .error _ => "Session completed successfully."

/-- The crisis denylist of `processConversation` (aiService.ts line 374). -/
def crisisKeywords : List String :=
  ["suicide", "kill myself", "end it all", "hurt myself", "self-harm",
   "can\x27t go on", "want to die", "no point in living"]

/-- `crisisKeywords.some(keyword => lastMessage.toLowerCase().includes(keyword))`
(aiService.ts lines 375-377). -/
def hasCrisisContent (lastMessage : String) : Bool :=
  crisisKeywords.any (fun keyword => strIncludes (jsToLower lastMessage) keyword)

/-- The fixed, non-AI-generated resource-referral text returned on a crisis
match (aiService.ts lines 380-389). -/
def crisisResponseText : String :=
  "I\x27m very concerned about what you\x27re sharing. Your safety is the most important thing right now. \n\nPlease reach out for immediate support:\n• National Suicide Prevention Lifeline: 988 or 1-800-273-8255\n• Crisis Text Line: Text HOME to 741741\n• Emergency Services: 911\n\nYou are valuable and your life matters. Professional crisis counselors are available 24/7 to help you through this difficult time. Please don\x27t hesitate to reach out to them right now.\n\nWhile I\x27m here to support your therapeutic journey, I want to make sure you have access to the immediate, specialized help you deserve."

/-- A chat message role. -/
inductive Role : Type where
  | user
  | assistant
deriving DecidableEq

/-- `ConversationMessage` (aiService.ts lines 27-31); the timestamp is an
opaque number. -/
structure ConversationMessage where
  role : Role
  content : String
  timestamp : ℚ

/-- The conversation sub-type selecting the framing instructions. -/
inductive ConversationType : Type where
  | therapeutic_guidance
  | crisis_support
  | reflection
  | goal_setting
deriving DecidableEq

/-- `processConversation` (aiService.ts lines 366-462), observed as (result,
external-call count, backoff delays).  The crisis check runs first for every
conversation type on `messages[messages.length - 1]?.content || ''`; if it
trips, the fixed referral text is returned with no external call.  Otherwise
a plain-text robust call (retries = 2) is made; its result is substituted
with a placeholder question when empty (`result || ...`), and any error is
rethrown by the catch block as `Error('Failed to process conversation')`. -/
def processConversation (api : Nat → ApiResult) (jitter : Nat → ℚ)
    (messages : List ConversationMessage)
    (_conversationType : ConversationType) :
    Except AiErr String × Nat × List ℚ :=
  let lastMessage := ((messages.getLast?).map ConversationMessage.content).getD ""
  if hasCrisisContent lastMessage then
    (.ok crisisResponseText, 0, [])
  else
    let run := robustOpenAICall api jitter (fun s => some s) 2
    match run.result with
    | .ok s =>
      (.ok (if s.isEmpty then
              "I understand. Could you tell me more about what you\x27re experiencing?"
            else s),
       run.calls, run.delays)
    | .error _ =>
      (.error (.opFailed "Failed to process conversation"), run.calls, run.delays)

/-!
## Context aggregation — `buildTherapeuticContext` (routes.ts lines 769-822)

The three historical fetches are read-only database queries, modelled by
their results.  `storage.getAssessments` and `storage.getAiInsights` return
row arrays; `storage.getChapterProgress(userId, chapterId)` returns a row
array, while `storage.getUserProgress(userId)` wraps the rows in an object
`{ progress, overallProgress: 0 }` (storage.ts lines 132-139), so the
aggregator receives an array exactly when a truthy `chapterId` was supplied.
A rejected fetch is an `Except.error` with the rejection message;
`Promise.all` rejects when any of the three does, landing in the catch block.
-/

/-- The value resolved by `storage.getUserProgress(userId)`
(storage.ts line 138): `{ progress, overallProgress: 0 }`. -/
def getUserProgressResult (rows : List JsonV) : JsonV :=
  .obj [("progress", .arr rows), ("overallProgress", .num 0)]

/-- The progress fetch selected at routes.ts line 773:
`chapterId ? storage.getChapterProgress(userId, chapterId) :
storage.getUserProgress(userId)` — note `0` is falsy. -/
def selectProgressFetch (chapterId : Option Nat)
    (chapterProgressFetch : Nat → Except String (List JsonV))
    (userProgressRowsFetch : Except String (List JsonV)) :
    Except String JsonV :=
  match chapterId with
  | some c =>
    if c = 0 then userProgressRowsFetch.map getUserProgressResult
    else (chapterProgressFetch c).map .arr
  | none => userProgressRowsFetch.map getUserProgressResult

/-- The assessment projection (routes.ts lines 778-782): keep only
`scores` and `completedAt`. -/
def truncAssessment (a : JsonV) : JsonV :=
  .obj [("scores", getF a "scores"), ("completedAt", getF a "completedAt")]

/-- The progress projection (routes.ts lines 785-790): keep `chapterId`,
`sectionId`, `completionStatus` and `updatedAt` (a stored row has a
`completed` column and no `completionStatus`, so that property reads
`undefined`). -/
def truncProgress (p : JsonV) : JsonV :=
  .obj [("chapterId", getF p "chapterId"), ("sectionId", getF p "sectionId"),
        ("completionStatus", getF p "completionStatus"),
        ("updatedAt", getF p "updatedAt")]

/-- The progress truncation (routes.ts lines 784-791): `slice(-10)` and
per-row projection when `Array.isArray(progressHistory)`, the value passed
through unchanged otherwise. -/
def truncProgressValue (pv : JsonV) : JsonV :=
  match pv with
  | .arr rows => .arr ((jsSliceLast 10 rows).map truncProgress)
  | other => other

/-- The insight projection (routes.ts lines 793-798): keep `type`, `content`,
`confidence` and `createdAt` (a stored `ai_insights` row has `insightType`
and `description` columns, so `type` and `content` read `undefined`). -/
def truncInsight (i : JsonV) : JsonV :=
  .obj [("type", getF i "type"), ("content", getF i "content"),
        ("confidence", getF i "confidence"), ("createdAt", getF i "createdAt")]

/-- The context value assembled per call (routes.ts lines 800-808):
`progressHistory` is either the truncated array or the untruncated non-array
fetch result passed through. -/
structure TherapeuticContextM where
  userId : String
  chapterId : Option Nat
  sectionId : Option String
  userResponses : JsonV
  assessmentHistory : List JsonV
  progressHistory : JsonV
  previousInsights : List JsonV

/-- The minimal context built by the catch block (routes.ts lines 812-820). -/
def fallbackContext (userId : String) (chapterId : Option Nat)
    (sectionId : Option String) (userResponses : JsonV) : TherapeuticContextM :=
  { userId := jsSubstringTo userId 8 ++ "...",
    chapterId := chapterId, sectionId := sectionId,
    userResponses := userResponses,
    assessmentHistory := [], progressHistory := .arr [],
    previousInsights := [] }

/-- `buildTherapeuticContext(userId, chapterId?, sectionId?, userResponses?)`
(routes.ts lines 769-822).  On the success path the three fetched
collections are truncated — `slice(-5)`, `slice(-10)` (arrays only), and
`slice(-5)` — and projected; the user id is anonymized with
`userId.substring(0, 8) + "..."` on both paths.  If any fetch rejects, the
catch block returns the minimal context with all three categories empty. -/
def buildTherapeuticContext (userId : String) (chapterId : Option Nat)
    (sectionId : Option String) (userResponses : JsonV)
    (assessmentsFetch : Except String (List JsonV))
    (chapterProgressFetch : Nat → Except String (List JsonV))
    (userProgressRowsFetch : Except String (List JsonV))
    (insightsFetch : Except String (List JsonV)) : TherapeuticContextM :=
  match assessmentsFetch,
        selectProgressFetch chapterId chapterProgressFetch userProgressRowsFetch,
        insightsFetch with
  | .ok assessmentHistory, .ok progressHistory, .ok previousInsights =>
    { userId := jsSubstringTo userId 8 ++ "...",
      chapterId := chapterId, sectionId := sectionId,
      userResponses := userResponses,
      assessmentHistory := (jsSliceLast 5 assessmentHistory).map truncAssessment,
      progressHistory := truncProgressValue progressHistory,
      previousInsights := (jsSliceLast 5 previousInsights).map truncInsight }
  | _, _, _ => fallbackContext userId chapterId sectionId userResponses

/-!
## Spec-modelled comparison client, and concrete test fixtures
-/

/-- Modelled from the spec: spec sections 4.4/4.5 and testable property 5
prescribe a transient-network retry budget and a malformed-output retry
budget kept as independent counters ("one retry unit distinct from the
network-retry budget").  This comparison definition follows the spec's words
(it is not in the source, which keeps a single loop counter); it decrements
`netLeft` only on caught transient-class failures and `malLeft` only on
parse/shape failures. -/
def specIndependentGo (api : Nat → ApiResult) (jitter : Nat → ℚ)
    (handle : String → Option α) : Nat → Nat → Nat → Nat → RunOut α
  | 0, _, _, _ => ⟨.error .allFailed, 0, []⟩
  | fuel + 1, idx, netLeft, malLeft =>
    match stepOutcome api handle idx with
    | .okStep v => ⟨.ok v, 1, []⟩
    | .authStop => ⟨.error .authError, 1, []⟩
    | .caught e =>
      match netLeft with
      | 0 => ⟨.error e, 1, []⟩
      | n + 1 =>
        let rest := specIndependentGo api jitter handle fuel (idx + 1) n malLeft
        ⟨rest.result, rest.calls + 1, backoffDelay jitter idx :: rest.delays⟩
    | .parseFail =>
      match malLeft with
      | 0 => ⟨.error .invalidFormat, 1, []⟩
      | m + 1 =>
        let rest := specIndependentGo api jitter handle fuel (idx + 1) netLeft m
        ⟨rest.result, rest.calls + 1, rest.delays⟩

/-- Modelled from the spec: the independent-budget completion call, with a
network budget and a malformed-output budget (see `specIndependentGo`). -/
def specIndependentCall (api : Nat → ApiResult) (jitter : Nat → ℚ)
    (handle : String → Option α) (netBudget malBudget : Nat) : RunOut α :=
  specIndependentGo api jitter handle (netBudget + malBudget + 1) 0 netBudget malBudget

/-- Zero jitter (`Math.random()` returned 0 at every attempt). -/
def jitterZero : Nat → ℚ := fun _ => 0

/-- A mocked service that fails transiently twice, then succeeds. -/
def apiTransientTwiceThenOk : Nat → ApiResult :=
  fun i => if i < 2 then .transient "network error" else .content "ok"

/-- A mocked service whose every call rejects with an auth (401) error. -/
def apiAllAuth : Nat → ApiResult := fun _ => .auth

/-- A mocked service whose every call fails transiently. -/
def apiAllTransient : Nat → ApiResult := fun _ => .transient "service unavailable"

/-- A mocked service returning malformed JSON, then a transient fault, then
valid JSON. -/
def apiMalformedTransientValid : Nat → ApiResult := fun i =>
  match i with
  | 0 => .content "bad"
  | 1 => .transient "network blip"
  | _ => .content "good"

/-- A parse step accepting exactly the content `"good"`. -/
def handleGoodBad : String → Option String :=
  fun s => if s = "good" then some "parsed" else none

/-- A `JSON.parse` oracle that always throws. -/
def jsParseNever : String → Option JsonV := fun _ => none

/-- A first structured insight item as returned by the mocked model. -/
def insightItem0 : JsonV :=
  .obj [("insightType", .str "progress_analysis"), ("title", .str "T0"),
        ("description", .str "D0"), ("confidence", .num 80),
        ("actionable", .bool true), ("data", .str "evidence")]

/-- A second structured insight item as returned by the mocked model. -/
def insightItem1 : JsonV :=
  .obj [("insightType", .str "growth_opportunity"), ("title", .str "T1"),
        ("description", .str "D1"), ("confidence", .num 60),
        ("actionable", .bool false), ("data", .str "more evidence")]

/-- A mocked service returning the fixed content `"payload"`. -/
def apiPayload : Nat → ApiResult := fun _ => .content "payload"

/-- A `JSON.parse` oracle mapping `"payload"` to a two-item `insights`
object. -/
def jsParseInsightPair : String → Option JsonV := fun s =>
  if s = "payload" then
    some (.obj [("insights", .arr [insightItem0, insightItem1])])
  else none

/-- A stored `workbook_progress` row (with its raw `responses`). -/
def progRow (j : Nat) : JsonV :=
  .obj [("id", .str "p"), ("userId", .str "user-123456789"),
        ("chapterId", .num 3), ("sectionId", .str "s1"),
        ("responses", .str "raw progress responses"),
        ("completed", .bool true), ("createdAt", .num (j : ℚ)),
        ("updatedAt", .num (j : ℚ))]

/-- Eleven stored progress rows. -/
def progRows11 : List JsonV := (List.range 11).map progRow

/-- A stored `assessments` row (with its raw per-question `responses`). -/
def assessRow (j : Nat) : JsonV :=
  .obj [("id", .str "a"), ("userId", .str "user-123456789"),
        ("assessmentType", .str "pre"),
        ("responses", .arr [.obj [("questionId", .num 1), ("rating", .num 3)]]),
        ("scores", .obj [("avg", .num 2)]),
        ("completedAt", .num (j : ℚ))]

/-- Six stored assessment rows. -/
def assessRows6 : List JsonV := (List.range 6).map assessRow

/-- A stored `ai_insights` row. -/
def insightRow (j : Nat) : JsonV :=
  .obj [("id", .str "i"), ("userId", .str "user-123456789"),
        ("insightType", .str "progress_analysis"), ("title", .str "t"),
        ("description", .str "d"), ("confidence", .num 80),
        ("createdAt", .num (j : ℚ))]

/-- Six stored insight rows. -/
def insightRows6 : List JsonV := (List.range 6).map insightRow

/-- A latest inbound message containing the denylisted phrase
"end it all". -/
def crisisMessage : ConversationMessage :=
  { role := .user, content := "I want to end it all", timestamp := 0 }

/-- A latest inbound message with no denylisted phrase. -/
def helloMessage : ConversationMessage :=
  { role := .user, content := "Hello, I feel stressed today", timestamp := 0 }

/-- A mocked service returning malformed JSON once, then valid JSON. -/
def apiMalformedThenValid : Nat → ApiResult :=
  fun i => if i = 0 then .content "bad" else .content "good"

/-!
## Helper lemmas
-/

/-- `slice(-n)` keeps the last `min n length` elements. -/
theorem jsSliceLast_length (n : Nat) (l : List α) :
    (jsSliceLast n l).length = min n l.length := by
  simp [jsSliceLast]
  omega

theorem find?_cons_true (k : String) (a : String × JsonV)
    (l : List (String × JsonV)) (h : (a.1 == k) = true) :
    List.find? (fun p => p.1 == k) (a :: l) = some a := by
  simp [List.find?_cons, h]

theorem find?_cons_false (k : String) (a : String × JsonV)
    (l : List (String × JsonV)) (h : (a.1 == k) = false) :
    List.find? (fun p => p.1 == k) (a :: l) =
      List.find? (fun p => p.1 == k) l := by
  simp [List.find?_cons, h]

theorem find?_map_overwrite (k : String) (v : JsonV) :
    ∀ fields : List (String × JsonV), fields.any (fun p => p.1 == k) = true →
      (fields.map (fun p => if p.1 == k then (k, v) else p)).find?
          (fun p => p.1 == k) = some (k, v) := by
  intro fields
  induction fields with
  | nil => intro h; simp at h
  | cons p ps ih =>
    intro h
    rw [List.map_cons]
    by_cases hp : (p.1 == k) = true
    · rw [if_pos hp, find?_cons_true k _ _ (by simp)]
    · have hps : ps.any (fun p => p.1 == k) = true := by
        simp only [List.any_cons, Bool.or_eq_true] at h
        exact h.resolve_left hp
      rw [if_neg hp, find?_cons_false k _ _ (by simpa using hp)]
      exact ih hps

theorem find?_append_new (k : String) (v : JsonV) :
    ∀ fields : List (String × JsonV), fields.any (fun p => p.1 == k) = false →
      (fields ++ [(k, v)]).find? (fun p => p.1 == k) = some (k, v) := by
  intro fields
  induction fields with
  | nil =>
    intro _
    rw [List.nil_append, find?_cons_true k _ _ (by simp)]
  | cons p ps ih =>
    intro h
    simp only [List.any_cons, Bool.or_eq_false_iff] at h
    rw [List.cons_append, find?_cons_false k _ _ h.1]
    exact ih h.2

theorem lookupField_setField_self (fields : List (String × JsonV)) (k : String)
    (v : JsonV) : lookupField (setField fields k v) k = some v := by
  unfold setField
  by_cases h : fields.any (fun p => p.1 == k) = true
  · rw [if_pos h]
    unfold lookupField
    rw [find?_map_overwrite k v fields h]
    rfl
  · rw [if_neg h]
    unfold lookupField
    simp only [Bool.not_eq_true] at h
    rw [find?_append_new k v fields h]
    rfl

theorem find?_map_overwrite_ne (k k' : String) (v : JsonV) (hne : k' ≠ k) :
    ∀ fields : List (String × JsonV),
      (fields.map (fun p => if p.1 == k then (k, v) else p)).find?
          (fun p => p.1 == k') = fields.find? (fun p => p.1 == k') := by
  have hk : (k == k') = false := by
    simp only [beq_eq_false_iff_ne, ne_eq]
    exact fun hh => hne hh.symm
  intro fields
  induction fields with
  | nil => rfl
  | cons p ps ih =>
    rw [List.map_cons]
    by_cases hp : (p.1 == k) = true
    · have hpk : p.1 = k := by simpa using hp
      have hpk' : (p.1 == k') = false := by rw [hpk]; exact hk
      rw [if_pos hp, find?_cons_false k' _ _ hk,
          find?_cons_false k' _ _ hpk']
      exact ih
    · rw [if_neg hp]
      by_cases hq : (p.1 == k') = true
      · rw [find?_cons_true k' _ _ hq, find?_cons_true k' _ _ hq]
      · rw [find?_cons_false k' _ _ (by simpa using hq),
            find?_cons_false k' _ _ (by simpa using hq)]
        exact ih

theorem find?_append_ne (k k' : String) (v : JsonV) (hne : k' ≠ k)
    (fields : List (String × JsonV)) :
    (fields ++ [(k, v)]).find? (fun p => p.1 == k') =
      fields.find? (fun p => p.1 == k') := by
  have hk : (k == k') = false := by
    simp only [beq_eq_false_iff_ne, ne_eq]
    exact fun hh => hne hh.symm
  induction fields with
  | nil =>
    rw [List.nil_append, find?_cons_false k' _ _ hk]
  | cons p ps ih =>
    rw [List.cons_append]
    by_cases hq : (p.1 == k') = true
    · rw [find?_cons_true k' _ _ hq, find?_cons_true k' _ _ hq]
    · rw [find?_cons_false k' _ _ (by simpa using hq),
          find?_cons_false k' _ _ (by simpa using hq)]
      exact ih

theorem lookupField_setField_ne (fields : List (String × JsonV)) (k k' : String)
    (v : JsonV) (hne : k' ≠ k) :
    lookupField (setField fields k v) k' = lookupField fields k' := by
  unfold setField
  by_cases h : fields.any (fun p => p.1 == k) = true
  · rw [if_pos h]
    unfold lookupField
    rw [find?_map_overwrite_ne k k' v hne]
  · rw [if_neg h]
    unfold lookupField
    rw [find?_append_ne k k' v hne]

theorem getF_setField_self (fields : List (String × JsonV)) (k : String)
    (v : JsonV) : getF (.obj (setField fields k v)) k = v := by
  simp [getF, lookupField_setField_self]

theorem getF_setField_ne (fields : List (String × JsonV)) (k k' : String)
    (v : JsonV) (hne : k' ≠ k) :
    getF (.obj (setField fields k v)) k' = getF (.obj fields) k' := by
  simp [getF, lookupField_setField_ne _ _ _ _ hne]

theorem one_le_two_pow_q (i : Nat) : (1 : ℚ) ≤ 2 ^ i := by
  calc (1 : ℚ) = 1 ^ i := (one_pow i).symm
  _ ≤ 2 ^ i := pow_le_pow_left₀ (by norm_num) (by norm_num) i

/-- The raw (uncapped) backoff grows strictly between consecutive attempts,
because the jitter is below the base doubling step. -/
theorem rawBackoff_strict (jitter : Nat → ℚ)
    (hj : ∀ n, 0 ≤ jitter n ∧ jitter n < 1000) (i : Nat) :
    1000 * 2 ^ i + jitter i < 1000 * 2 ^ (i + 1) + jitter (i + 1) := by
  have h2 := one_le_two_pow_q i
  have hi := (hj i).2
  have hi1 := (hj (i + 1)).1
  rw [pow_succ]
  nlinarith

/-- The inserted backoff delay is monotone (non-decreasing) in the attempt
index. -/
theorem backoffDelay_mono (jitter : Nat → ℚ)
    (hj : ∀ n, 0 ≤ jitter n ∧ jitter n < 1000) (i : Nat) :
    backoffDelay jitter i ≤ backoffDelay jitter (i + 1) := by
  exact min_le_min (le_of_lt (rawBackoff_strict jitter hj i)) le_rfl

/-- Below the 5000 ms cap the backoff delay is strictly increasing. -/
theorem backoffDelay_strict (jitter : Nat → ℚ)
    (hj : ∀ n, 0 ≤ jitter n ∧ jitter n < 1000) (i : Nat)
    (hcap : backoffDelay jitter (i + 1) < 5000) :
    backoffDelay jitter i < backoffDelay jitter (i + 1) := by
  have hraw := rawBackoff_strict jitter hj i
  have heq : backoffDelay jitter (i + 1) = 1000 * 2 ^ (i + 1) + jitter (i + 1) := by
    rcases min_cases (1000 * 2 ^ (i + 1) + jitter (i + 1)) (5000 : ℚ) with h | h
    · exact h.1
    · exfalso
      rw [backoffDelay] at hcap
      rw [h.1] at hcap
      exact lt_irrefl _ hcap
  calc backoffDelay jitter i ≤ 1000 * 2 ^ i + jitter i := min_le_left _ _
  _ < 1000 * 2 ^ (i + 1) + jitter (i + 1) := hraw
  _ = backoffDelay jitter (i + 1) := heq.symm

/-- When every attempt up to and including the last allowed one fails with
the same transient error, the loop consumes all its attempts, backing off
between consecutive ones, and surfaces the transient error. -/
theorem robustGo_allTransient (api : Nat → ApiResult) (jitter : Nat → ℚ)
    (handle : String → Option α) (retries : Nat) (msg : String)
    (hapi : ∀ i, api i = .transient msg) :
    ∀ fuel attempt lastErr, attempt + fuel = retries + 1 → attempt ≤ retries →
      robustGo api jitter handle retries fuel attempt lastErr =
        ⟨.error (.transientMsg msg), fuel,
         (List.range' attempt (retries - attempt)).map (backoffDelay jitter)⟩ := by
  intro fuel
  induction fuel with
  | zero => intro attempt lastErr h1 h2; omega
  | succ f ih =>
    intro attempt lastErr h1 h2
    have hstep : stepOutcome api handle attempt = .caught (.transientMsg msg) := by
      simp [stepOutcome, hapi]
    unfold robustGo
    rw [hstep]
    by_cases hlt : attempt < retries
    · simp only [robustStep, if_pos hlt]
      rw [ih (attempt + 1) (some (.transientMsg msg)) (by omega) (by omega)]
      have hr : retries - attempt = (retries - (attempt + 1)) + 1 := by omega
      rw [hr, List.range'_succ, List.map_cons]
    · simp only [robustStep, if_neg hlt]
      have heq : attempt = retries := by omega
      have hf : f = 0 := by omega
      subst heq hf
      simp

/-- When every attempt before the last fails transiently and the last one
returns parseable content, the loop succeeds on the last attempt having
backed off between every pair of consecutive attempts. -/
theorem robustGo_transientThenOk (api : Nat → ApiResult) (jitter : Nat → ℚ)
    (handle : String → Option α) (retries : Nat) (msgf : Nat → String)
    (s : String) (v : α)
    (hfail : ∀ i, i < retries → api i = .transient (msgf i))
    (hsucc : api retries = .content s) (hne : s.isEmpty = false)
    (hparse : handle s = some v) :
    ∀ fuel attempt lastErr, attempt + fuel = retries + 1 → attempt ≤ retries →
      robustGo api jitter handle retries fuel attempt lastErr =
        ⟨.ok v, fuel,
         (List.range' attempt (retries - attempt)).map (backoffDelay jitter)⟩ := by
  intro fuel
  induction fuel with
  | zero => intro attempt lastErr h1 h2; omega
  | succ f ih =>
    intro attempt lastErr h1 h2
    unfold robustGo
    by_cases hlt : attempt < retries
    · have hstep : stepOutcome api handle attempt =
          .caught (.transientMsg (msgf attempt)) := by
        simp [stepOutcome, hfail attempt hlt]
      rw [hstep]
      simp only [robustStep, if_pos hlt]
      rw [ih (attempt + 1) (some (.transientMsg (msgf attempt))) (by omega) (by omega)]
      have hr : retries - attempt = (retries - (attempt + 1)) + 1 := by omega
      rw [hr, List.range'_succ, List.map_cons]
    · have heq : attempt = retries := by omega
      have hf : f = 0 := by omega
      subst heq hf
      have hstep : stepOutcome api handle attempt = .okStep v := by
        simp [stepOutcome, hsucc, hne, hparse]
      rw [hstep]
      simp [robustStep]

/-- Exhausting the loop on a constant transient failure makes `retries + 1`
calls and surfaces the transient error. -/
theorem robustOpenAICall_allTransient (api : Nat → ApiResult) (jitter : Nat → ℚ)
    (handle : String → Option α) (retries : Nat) (msg : String)
    (hapi : ∀ i, api i = .transient msg) :
    robustOpenAICall api jitter handle retries =
      ⟨.error (.transientMsg msg), retries + 1,
       (List.range retries).map (backoffDelay jitter)⟩ := by
  have h := robustGo_allTransient api jitter handle retries msg hapi
    (retries + 1) 0 none (by omega) (by omega)
  rw [robustOpenAICall, h]
  simp [List.range_eq_range']

/-!
## Claim theorems
-/

/-- C1: For every conversation-mode invocation whose latest inbound message
contains (case-insensitively, as a substring) a phrase from the crisis
denylist, `processConversation` returns the fixed, non-AI-generated
resource-referral text and makes zero calls to the external text-generation
service — the completion call site is unreachable on that turn. -/
theorem crisis_denylist_blocks_completion
    (api : Nat → ApiResult) (jitter : Nat → ℚ)
    (messages : List ConversationMessage) (conversationType : ConversationType)
    (h : hasCrisisContent
        (((messages.getLast?).map ConversationMessage.content).getD "") = true) :
    processConversation api jitter messages conversationType =
      (.ok crisisResponseText, 0, []) := by
  simp [processConversation, h]

/-- C1 witness: "I want to end it all" contains the denylisted phrase
"end it all", and the pipeline returns the fixed referral text with zero
external calls even against a permanently failing mocked service. -/
theorem crisis_denylist_blocks_completion_check :
    hasCrisisContent
        ((([crisisMessage].getLast?).map ConversationMessage.content).getD "")
      = true ∧
    processConversation apiAllTransient jitterZero [crisisMessage]
        .therapeutic_guidance = (.ok crisisResponseText, 0, []) :=
  ⟨by decide, crisis_denylist_blocks_completion apiAllTransient jitterZero
      [crisisMessage] .therapeutic_guidance (by decide)⟩

/-- C3: If the external completion call fails transiently on each of the
first `retryBudget` attempts and then succeeds, `robustOpenAICall` succeeds,
makes exactly `retryBudget + 1` external calls, and inserts the backoff
delays `min (1000·2^attempt + jitter attempt) 5000` for attempts
`0, ..., retryBudget - 1`, a sequence that is monotonically increasing
(strictly so below the 5000 ms cap, where the cap makes consecutive delays
equal at worst). -/
theorem transient_retry_backoff_bound
    (api : Nat → ApiResult) (jitter : Nat → ℚ) (handle : String → Option α)
    (retryBudget : Nat) (msgf : Nat → String) (s : String) (v : α)
    (hj : ∀ n, 0 ≤ jitter n ∧ jitter n < 1000)
    (hfail : ∀ i, i < retryBudget → api i = .transient (msgf i))
    (hsucc : api retryBudget = .content s) (hne : s.isEmpty = false)
    (hparse : handle s = some v) :
    robustOpenAICall api jitter handle retryBudget =
      ⟨.ok v, retryBudget + 1,
       (List.range retryBudget).map (backoffDelay jitter)⟩ ∧
    (∀ i, backoffDelay jitter i ≤ backoffDelay jitter (i + 1)) ∧
    (∀ i, backoffDelay jitter (i + 1) < 5000 →
      backoffDelay jitter i < backoffDelay jitter (i + 1)) := by
  refine ⟨?_, fun i => backoffDelay_mono jitter hj i,
    fun i hcap => backoffDelay_strict jitter hj i hcap⟩
  have h := robustGo_transientThenOk api jitter handle retryBudget msgf s v
    hfail hsucc hne hparse (retryBudget + 1) 0 none (by omega) (by omega)
  rw [robustOpenAICall, h]
  simp [List.range_eq_range']

/-- C3 witness: two transient failures then success, zero jitter: three
calls, delays 1000 then 2000, strictly increasing. -/
theorem transient_retry_backoff_bound_check :
    robustOpenAICall apiTransientTwiceThenOk jitterZero (fun s => some s) 2 =
      ⟨.ok "ok", 3, (List.range 2).map (backoffDelay jitterZero)⟩ ∧
    backoffDelay jitterZero 0 < backoffDelay jitterZero 1 := by
  have h := transient_retry_backoff_bound apiTransientTwiceThenOk jitterZero
    (fun s => some s) 2 (fun _ => "network error") "ok" "ok"
    (fun n => ⟨le_refl 0, by norm_num [jitterZero]⟩)
    (fun i hi => by simp [apiTransientTwiceThenOk, hi])
    (by simp [apiTransientTwiceThenOk]) rfl rfl
  refine ⟨h.1, h.2.2 0 ?_⟩
  norm_num [backoffDelay, jitterZero]

/-- C4: If the external completion call fails with an authentication (fatal,
`401`) error on the first attempt, `robustOpenAICall` makes exactly 1
external call, inserts no backoff delay, and surfaces the auth failure
immediately, as an error kind distinct from every transient-exhaustion
surface. -/
theorem fatal_auth_short_circuit
    (api : Nat → ApiResult) (jitter : Nat → ℚ) (handle : String → Option α)
    (retries : Nat) (h : api 0 = .auth) :
    robustOpenAICall api jitter handle retries = ⟨.error .authError, 1, []⟩ ∧
    (∀ m, AiErr.authError ≠ AiErr.transientMsg m) ∧
    AiErr.authError ≠ AiErr.timeout ∧ AiErr.authError ≠ AiErr.noContent ∧
    AiErr.authError ≠ AiErr.invalidFormat ∧ AiErr.authError ≠ AiErr.allFailed := by
  refine ⟨?_, by simp, by simp, by simp, by simp, by simp⟩
  have hstep : stepOutcome api handle 0 = .authStop := by simp [stepOutcome, h]
  rw [robustOpenAICall]
  unfold robustGo
  rw [hstep]
  rfl

/-- C4 witness: a mocked always-401 service is called exactly once. -/
theorem fatal_auth_short_circuit_check :
    robustOpenAICall apiAllAuth jitterZero (fun s : String => some s) 2 =
      ⟨.error .authError, 1, []⟩ :=
  (fatal_auth_short_circuit apiAllAuth jitterZero (fun s => some s) 2 rfl).1

/-- C5 counterexample: the malformed-output retry and the transient-network
retry draw on the same single `retries` counter.  With `retries = 1` and the
trace (malformed JSON, transient fault, valid JSON), the code fails after 2
calls — the malformed-output recovery at attempt 0 consumed the only retry
unit, so the transient fault at attempt 1 exhausts the budget — whereas the
independent-budget client prescribed by the claim succeeds on the third call.
Hence the malformed-output budget is not independent from the network-retry
budget. -/
theorem malformed_budget_shared_counterexample :
    robustOpenAICall apiMalformedTransientValid jitterZero handleGoodBad 1 =
      ⟨.error (.transientMsg "network blip"), 2, []⟩ ∧
    specIndependentCall apiMalformedTransientValid jitterZero handleGoodBad 1 2 =
      ⟨.ok "parsed", 3, [backoffDelay jitterZero 1]⟩ ∧
    (Except.error (AiErr.transientMsg "network blip") : Except AiErr String) ≠
      Except.ok "parsed" :=
  ⟨rfl, rfl, by simp⟩

/-- C5 amended: if the completion client returns malformed JSON exactly once
and then valid JSON of the expected shape, the call succeeds with exactly 2
external calls and no backoff delay in between; however the malformed-output
retry consumes one unit of the same single retry budget that
transient-network retries use — the two budgets are shared, not
independent. -/
theorem malformed_retry_amended
    (api : Nat → ApiResult) (jitter : Nat → ℚ) (handle : String → Option α)
    (retries : Nat) (sBad sGood : String) (v : α) (hr : 1 ≤ retries)
    (h0 : api 0 = .content sBad) (h0e : sBad.isEmpty = false)
    (h0p : handle sBad = none)
    (h1 : api 1 = .content sGood) (h1e : sGood.isEmpty = false)
    (h1p : handle sGood = some v) :
    robustOpenAICall api jitter handle retries = ⟨.ok v, 2, []⟩ ∧
    robustOpenAICall apiMalformedTransientValid jitterZero handleGoodBad 1 =
      ⟨.error (.transientMsg "network blip"), 2, []⟩ := by
  refine ⟨?_, rfl⟩
  obtain ⟨r, rfl⟩ : ∃ r, retries = r + 1 := ⟨retries - 1, by omega⟩
  have hstep0 : stepOutcome api handle 0 = .parseFail := by
    simp [stepOutcome, h0, h0e, h0p]
  have hstep1 : stepOutcome api handle 1 = .okStep v := by
    simp [stepOutcome, h1, h1e, h1p]
  rw [robustOpenAICall]
  unfold robustGo
  rw [hstep0]
  simp only [robustStep]
  rw [if_neg (by omega : ¬(0 = r + 1))]
  unfold robustGo
  rw [hstep1]
  simp [robustStep]

/-- C5 amended witness: malformed once then valid, default budget 2: success
after exactly 2 calls, no backoff delay. -/
theorem malformed_retry_amended_check :
    robustOpenAICall apiMalformedThenValid jitterZero handleGoodBad 2 =
      ⟨.ok "parsed", 2, []⟩ :=
  (malformed_retry_amended apiMalformedThenValid jitterZero handleGoodBad 2
    "bad" "good" "parsed" (by norm_num) rfl rfl rfl rfl rfl rfl).1

/-- C8 counterexample: five pipeline operations silently convert exhausted
failures into fabricated success responses when every external call fails
transiently — `analyzeSentiment` returns the default sentiment
`{rating: 3, confidence: 0.5, emotional_state: 'neutral'}`,
`generateContextualQuestions` returns an empty questions array,
`answerMaterialQuestion` and `generateSessionSummary` return canned text,
and `generateContextualAssistance` returns an empty suggestions array —
and no flag distinguishes these fabricated values from genuine replies. -/
theorem silent_fallback_counterexample :
    analyzeSentiment apiAllTransient jitterZero jsParseNever =
      ⟨3, 1/2, "neutral"⟩ ∧
    generateContextualQuestions apiAllTransient jitterZero jsParseNever = [] ∧
    answerMaterialQuestion apiAllTransient jitterZero = answerErrorFallback ∧
    generateContextualAssistance apiAllTransient jitterZero jsParseNever = [] ∧
    generateSessionSummary apiAllTransient jitterZero =
      "Session completed successfully." :=
  ⟨rfl, rfl, rfl, rfl, rfl⟩

/-- C8 amended: after exhausting the retry budget on transient failures,
`generateTherapeuticGuidance`, `generateReflectionPrompts`,
`analyzeProgressInsights`, `generateAdaptiveRecommendations` and
`processConversation` (outside the crisis branch) surface typed failures;
but `analyzeSentiment`, `generateContextualQuestions`,
`answerMaterialQuestion`, `generateContextualAssistance` and
`generateSessionSummary` convert the failure into fabricated success
responses (default neutral sentiment, empty arrays, canned text) carrying
no marker that distinguishes them from genuine model replies. -/
theorem error_surfacing_amended
    (api : Nat → ApiResult) (jitter : Nat → ℚ) (jsParse : String → Option JsonV)
    (uid : String) (chId : Option Nat) (sec : Option String)
    (messages : List ConversationMessage)
    (conversationType : ConversationType) (m : String)
    (hapi : ∀ i, api i = .transient m)
    (hmsg : hasCrisisContent
        (((messages.getLast?).map ConversationMessage.content).getD "") = false) :
    generateTherapeuticGuidance api jitter jsParse uid chId sec =
      .error (.opFailed "Failed to generate therapeutic guidance") ∧
    generateReflectionPrompts api jitter jsParse uid chId sec =
      .error (.opFailed "Failed to generate reflection prompts") ∧
    analyzeProgressInsights api jitter jsParse uid =
      .error (.opFailed "Failed to analyze progress insights") ∧
    generateAdaptiveRecommendations api jitter jsParse uid chId sec =
      .error (.opFailed "Failed to generate adaptive recommendations") ∧
    (processConversation api jitter messages conversationType).1 =
      .error (.opFailed "Failed to process conversation") ∧
    analyzeSentiment api jitter jsParse = ⟨3, 1/2, "neutral"⟩ ∧
    generateContextualQuestions api jitter jsParse = [] ∧
    answerMaterialQuestion api jitter = answerErrorFallback ∧
    generateContextualAssistance api jitter jsParse = [] ∧
    generateSessionSummary api jitter = "Session completed successfully." := by
  refine ⟨?_, ?_, ?_, ?_, ?_, ?_, ?_, ?_, ?_, ?_⟩
  · simp [generateTherapeuticGuidance,
      robustOpenAICall_allTransient api jitter (parseNamedArray jsParse "guidance") 2 m hapi]
  · simp [generateReflectionPrompts,
      robustOpenAICall_allTransient api jitter (parseNamedArray jsParse "prompts") 2 m hapi]
  · simp [analyzeProgressInsights,
      robustOpenAICall_allTransient api jitter (parseNamedArray jsParse "insights") 2 m hapi]
  · simp [generateAdaptiveRecommendations,
      robustOpenAICall_allTransient api jitter (parseNamedArray jsParse "recommendations") 2 m hapi]
  · simp [processConversation, hmsg,
      robustOpenAICall_allTransient api jitter (fun s => some s) 2 m hapi]
  · simp [analyzeSentiment,
      robustOpenAICall_allTransient api jitter (parseSentiment jsParse) 2 m hapi]
  · simp [generateContextualQuestions,
      robustOpenAICall_allTransient api jitter (parseNamedArray jsParse "questions") 2 m hapi]
  · simp [answerMaterialQuestion,
      robustOpenAICall_allTransient api jitter (fun s => some s) 2 m hapi]
  · simp [generateContextualAssistance,
      robustOpenAICall_allTransient api jitter (parseNamedArray jsParse "suggestions") 2 m hapi]
  · simp [generateSessionSummary,
      robustOpenAICall_allTransient api jitter (fun s => some s) 2 m hapi]

/-- C8 amended witness: at a concrete always-transient service and a
non-crisis message, the five surfaced typed failures and the five
fabricated fallbacks, instantiated. -/
theorem error_surfacing_amended_check :
    generateTherapeuticGuidance apiAllTransient jitterZero jsParseNever
        "user-42" (some 3) (some "s1") =
      .error (.opFailed "Failed to generate therapeutic guidance") ∧
    generateReflectionPrompts apiAllTransient jitterZero jsParseNever
        "user-42" (some 3) (some "s1") =
      .error (.opFailed "Failed to generate reflection prompts") ∧
    analyzeProgressInsights apiAllTransient jitterZero jsParseNever "user-42" =
      .error (.opFailed "Failed to analyze progress insights") ∧
    generateAdaptiveRecommendations apiAllTransient jitterZero jsParseNever
        "user-42" (some 3) (some "s1") =
      .error (.opFailed "Failed to generate adaptive recommendations") ∧
    (processConversation apiAllTransient jitterZero [helloMessage] .reflection).1 =
      .error (.opFailed "Failed to process conversation") ∧
    analyzeSentiment apiAllTransient jitterZero jsParseNever = ⟨3, 1/2, "neutral"⟩ ∧
    generateContextualQuestions apiAllTransient jitterZero jsParseNever = [] ∧
    answerMaterialQuestion apiAllTransient jitterZero = answerErrorFallback ∧
    generateContextualAssistance apiAllTransient jitterZero jsParseNever = [] ∧
    generateSessionSummary apiAllTransient jitterZero =
      "Session completed successfully." :=
  error_surfacing_amended apiAllTransient jitterZero jsParseNever "user-42"
    (some 3) (some "s1") [helloMessage] .reflection "service unavailable"
    (fun _ => rfl) (by decide)

/-- When all three fetches resolve, the aggregator builds the truncated,
projected context (success branch of routes.ts lines 777-808). -/
theorem buildTherapeuticContext_ok
    (u : String) (chId : Option Nat) (sec : Option String) (ur : JsonV)
    (fc : Nat → Except String (List JsonV)) (fu : Except String (List JsonV))
    (aRows iRows : List JsonV) (pv : JsonV)
    (hp : selectProgressFetch chId fc fu = .ok pv) :
    buildTherapeuticContext u chId sec ur (.ok aRows) fc fu (.ok iRows) =
      { userId := jsSubstringTo u 8 ++ "...",
        chapterId := chId, sectionId := sec, userResponses := ur,
        assessmentHistory := (jsSliceLast 5 aRows).map truncAssessment,
        progressHistory := truncProgressValue pv,
        previousInsights := (jsSliceLast 5 iRows).map truncInsight } := by
  unfold buildTherapeuticContext
  simp only [hp]

/-- C2 counterexample: with no `chapterId`, the aggregator takes the
`getUserProgress` path, whose `{progress, overallProgress}` object is not an
array and is passed through untruncated: with 11 stored progress rows the
assembled context's `progressHistory` is not a 10-entry sequence at all — it
is an object carrying all 11 raw rows — so the 10-entry hard cap does not
hold "regardless of underlying store size". -/
theorem progress_cap_counterexample :
    arrLength (buildTherapeuticContext "user-123456789" none (some "s1") .undefined
        (.ok assessRows6) (fun _ => .ok []) (.ok progRows11)
        (.ok insightRows6)).progressHistory = none ∧
    getF (buildTherapeuticContext "user-123456789" none (some "s1") .undefined
        (.ok assessRows6) (fun _ => .ok []) (.ok progRows11)
        (.ok insightRows6)).progressHistory "progress" = .arr progRows11 ∧
    progRows11.length = 11 :=
  ⟨rfl, rfl, rfl⟩

/-- C2 amended: on the success path the context's `assessmentHistory` and
`previousInsights` are hard-capped at 5 and 5 entries (exactly 5 when more
are stored), for any fetch results; `progressHistory` is capped at 10
entries only when a non-zero `chapterId` was supplied (the chapter-scoped
fetch returns an array, truncated to its last 10 rows); when `chapterId` is
absent, the non-array `{progress, overallProgress}` object from
`getUserProgress` is passed through untruncated. -/
theorem history_caps_amended
    (u : String) (chId : Option Nat) (sec : Option String) (ur : JsonV)
    (fc : Nat → Except String (List JsonV)) (fu : Except String (List JsonV))
    (aRows iRows : List JsonV) (pv : JsonV)
    (hp : selectProgressFetch chId fc fu = .ok pv) :
    (buildTherapeuticContext u chId sec ur (.ok aRows) fc fu
        (.ok iRows)).assessmentHistory.length = min 5 aRows.length ∧
    (buildTherapeuticContext u chId sec ur (.ok aRows) fc fu
        (.ok iRows)).previousInsights.length = min 5 iRows.length ∧
    (∀ c cRows, chId = some c → c ≠ 0 → fc c = .ok cRows →
      arrLength (buildTherapeuticContext u chId sec ur (.ok aRows) fc fu
        (.ok iRows)).progressHistory = some (min 10 cRows.length)) ∧
    (∀ uRows, chId = none → fu = .ok uRows →
      (buildTherapeuticContext u chId sec ur (.ok aRows) fc fu
        (.ok iRows)).progressHistory = getUserProgressResult uRows) ∧
    (∀ fa fi : Except String (List JsonV),
      (buildTherapeuticContext u chId sec ur fa fc fu fi).assessmentHistory.length ≤ 5 ∧
      (buildTherapeuticContext u chId sec ur fa fc fu fi).previousInsights.length ≤ 5) := by
  rw [buildTherapeuticContext_ok u chId sec ur fc fu aRows iRows pv hp]
  refine ⟨?_, ?_, ?_, ?_, ?_⟩
  · simp [jsSliceLast_length]
  · simp [jsSliceLast_length]
  · intro c cRows hc hc0 hfc
    subst hc
    rw [selectProgressFetch, if_neg hc0, hfc] at hp
    have hpv : pv = .arr cRows := by
      simpa [Except.map] using hp.symm
    subst hpv
    simp [truncProgressValue, arrLength, jsSliceLast_length]
  · intro uRows hc hu
    subst hc hu
    rw [selectProgressFetch] at hp
    have hpv : pv = getUserProgressResult uRows := by
      simpa [Except.map] using hp.symm
    subst hpv
    rfl
  · intro fa fi
    rcases hsel : selectProgressFetch chId fc fu with e2 | p2
    all_goals rcases fa with e | a
    all_goals rcases fi with e3 | i
    all_goals unfold buildTherapeuticContext
    all_goals try rw [hsel]
    all_goals simp [fallbackContext, jsSliceLast_length]

/-- C2 amended witness: chapter-scoped call over a store with 6 assessments,
11 chapter progress rows, 6 insights: exactly 5 / 10 / 5 entries. -/
theorem history_caps_amended_check :
    (buildTherapeuticContext "user-123456789" (some 3) (some "s1") .undefined
        (.ok assessRows6) (fun _ => .ok progRows11) (.ok [])
        (.ok insightRows6)).assessmentHistory.length = 5 ∧
    (buildTherapeuticContext "user-123456789" (some 3) (some "s1") .undefined
        (.ok assessRows6) (fun _ => .ok progRows11) (.ok [])
        (.ok insightRows6)).previousInsights.length = 5 ∧
    arrLength (buildTherapeuticContext "user-123456789" (some 3) (some "s1")
        .undefined (.ok assessRows6) (fun _ => .ok progRows11) (.ok [])
        (.ok insightRows6)).progressHistory = some 10 := by
  have h := history_caps_amended "user-123456789" (some 3) (some "s1") .undefined
    (fun _ => .ok progRows11) (.ok []) assessRows6 insightRows6
    (.arr progRows11) rfl
  refine ⟨?_, ?_, ?_⟩
  · rw [h.1]; decide
  · rw [h.2.1]; decide
  · rw [h.2.2.1 3 progRows11 rfl (by decide) rfl]; decide

/-- C6 counterexample: when exactly one fetch fails (here the assessment
fetch) while the progress and insight fetches succeed with one row each, the
returned context does not keep the two successful categories: all three come
back empty, so the successful categories' fetched entries are lost. -/
theorem fetch_failure_counterexample :
    (buildTherapeuticContext "user-123456789" (some 3) (some "s1") .undefined
        (.error "database connection lost") (fun _ => .ok [progRow 0])
        (.ok []) (.ok [insightRow 0])).progressHistory = .arr [] ∧
    (buildTherapeuticContext "user-123456789" (some 3) (some "s1") .undefined
        (.error "database connection lost") (fun _ => .ok [progRow 0])
        (.ok []) (.ok [insightRow 0])).previousInsights = [] ∧
    ([] : List JsonV) ≠ [truncInsight (insightRow 0)] ∧
    (JsonV.arr [] ≠ .arr [truncProgress (progRow 0)]) := by
  refine ⟨rfl, rfl, by simp, ?_⟩
  intro h
  have : ([] : List JsonV) = [truncProgress (progRow 0)] := by
    injection h
  simp at this

/-- C6 amended: when any of the three historical fetches fails, the error is
not propagated — a context is still returned — but that context has all
three history categories empty, not only the failed one. -/
theorem fetch_failure_fallback_amended
    (u : String) (chId : Option Nat) (sec : Option String) (ur : JsonV)
    (fa : Except String (List JsonV)) (fc : Nat → Except String (List JsonV))
    (fu fi : Except String (List JsonV))
    (h : (∃ e, fa = .error e) ∨
         (∃ e, selectProgressFetch chId fc fu = .error e) ∨
         (∃ e, fi = .error e)) :
    buildTherapeuticContext u chId sec ur fa fc fu fi =
      fallbackContext u chId sec ur := by
  unfold buildTherapeuticContext
  rcases h with ⟨e, he⟩ | ⟨e, he⟩ | ⟨e, he⟩
  · rw [he]
  · rw [he]
    rcases fa with e1 | a
    · rfl
    · rcases fi with e3 | i <;> rfl
  · rw [he]
    rcases fa with e1 | a
    · rfl
    · rcases hsel : selectProgressFetch chId fc fu with e2 | p2 <;> rfl

/-- C6 amended witness: a failing assessment fetch with successful progress
and insight fetches yields the all-empty fallback context. -/
theorem fetch_failure_fallback_amended_check :
    buildTherapeuticContext "user-123456789" (some 3) (some "s1") .undefined
        (.error "database connection lost") (fun _ => .ok [progRow 0])
        (.ok []) (.ok [insightRow 0]) =
      fallbackContext "user-123456789" (some 3) (some "s1") .undefined :=
  fetch_failure_fallback_amended "user-123456789" (some 3) (some "s1") .undefined
    (.error "database connection lost") (fun _ => .ok [progRow 0]) (.ok [])
    (.ok [insightRow 0]) (.inl ⟨"database connection lost", rfl⟩)

/-- C7 counterexample: the assessment entries kept in the context are
`{scores, completedAt}` objects, not the claimed
`{assessmentType, averageScore, responseCount, completedAt}` shape: at a
concrete stored row the projected entry's key list is
`["scores", "completedAt"]`. -/
theorem assessment_shape_counterexample :
    (buildTherapeuticContext "user-123456789" (some 3) none .undefined
        (.ok [assessRow 0]) (fun _ => .ok []) (.ok [])
        (.ok [])).assessmentHistory.map objKeys = [["scores", "completedAt"]] ∧
    (["scores", "completedAt"] : List String) ≠
      ["assessmentType", "averageScore", "responseCount", "completedAt"] :=
  ⟨rfl, by decide⟩

/-- C7 amended: every entry of the context's `assessmentHistory` is reduced
to exactly the shape `{scores, completedAt}`; raw per-question response data
(the row's `responses` field) is never included, and every field outside the
minimized shape (including `assessmentType`, `id`, `userId`) is dropped,
never forwarded, while `scores` and `completedAt` are forwarded unchanged. -/
theorem assessment_projection_amended
    (u : String) (chId : Option Nat) (sec : Option String) (ur : JsonV)
    (fc : Nat → Except String (List JsonV)) (fu : Except String (List JsonV))
    (aRows iRows : List JsonV) (pv : JsonV)
    (hp : selectProgressFetch chId fc fu = .ok pv) :
    (buildTherapeuticContext u chId sec ur (.ok aRows) fc fu
        (.ok iRows)).assessmentHistory =
      (jsSliceLast 5 aRows).map truncAssessment ∧
    (∀ v ∈ (buildTherapeuticContext u chId sec ur (.ok aRows) fc fu
        (.ok iRows)).assessmentHistory, objKeys v = ["scores", "completedAt"]) ∧
    (∀ a, objKeys (truncAssessment a) = ["scores", "completedAt"] ∧
      getF (truncAssessment a) "responses" = .undefined ∧
      getF (truncAssessment a) "assessmentType" = .undefined ∧
      getF (truncAssessment a) "id" = .undefined ∧
      getF (truncAssessment a) "userId" = .undefined ∧
      getF (truncAssessment a) "scores" = getF a "scores" ∧
      getF (truncAssessment a) "completedAt" = getF a "completedAt") := by
  rw [buildTherapeuticContext_ok u chId sec ur fc fu aRows iRows pv hp]
  refine ⟨rfl, ?_, fun a => ⟨rfl, rfl, rfl, rfl, rfl, rfl, rfl⟩⟩
  intro v hv
  obtain ⟨a, _, rfl⟩ := List.mem_map.mp hv
  rfl

/-- C7 amended witness: at a concrete stored row, the projected entry keeps
the `scores` object and `completedAt` and drops `responses` and
`assessmentType`. -/
theorem assessment_projection_amended_check :
    (buildTherapeuticContext "user-123456789" (some 3) none .undefined
        (.ok [assessRow 0]) (fun _ => .ok []) (.ok [])
        (.ok [])).assessmentHistory = [truncAssessment (assessRow 0)] ∧
    getF (truncAssessment (assessRow 0)) "responses" = .undefined ∧
    getF (truncAssessment (assessRow 0)) "scores" = getF (assessRow 0) "scores" := by
  have h := assessment_projection_amended "user-123456789" (some 3) none .undefined
    (fun _ => .ok []) (.ok []) [assessRow 0] [] (.arr []) rfl
  exact ⟨h.1, (h.2.2 (assessRow 0)).2.1, (h.2.2 (assessRow 0)).2.2.2.2.2.1⟩

/-- C9 counterexample: the insights projector does mutate a payload field —
it rewraps the model-supplied `data` value as `{analysis: data}` — so the
validated payload's semantic fields are not all left unmutated: at a
concrete item with `data: "evidence"`, the projected item's `data` is the
wrapper object, not the original string. -/
theorem projector_data_rewrap_counterexample :
    getF (projectInsightItem "user-42" insightItem0) "data" =
      .obj [("analysis", .str "evidence")] ∧
    getF insightItem0 "data" = .str "evidence" ∧
    JsonV.obj [("analysis", .str "evidence")] ≠ .str "evidence" :=
  ⟨rfl, rfl, fun h => JsonV.noConfusion h⟩

/-- C9 amended: in insights mode the Result Projector attaches the original
caller-supplied `userId` to each element of the validated output array and
preserves the array length and every payload field other than `data`
(`insightType`, `title`, `description`, `confidence`, `actionable`, ...);
the `data` field, however, is rewrapped as `{analysis: <original data>}`
rather than forwarded unmodified.  In particular a 2-item mocked array
projects to 2 items, each carrying the original `userId`. -/
theorem projector_amended
    (uid : String) (items : List JsonV) (api : Nat → ApiResult)
    (jitter : Nat → ℚ) (jsParse : String → Option JsonV) :
    ((robustOpenAICall api jitter (parseNamedArray jsParse "insights") 2).result
        = .ok items →
      analyzeProgressInsights api jitter jsParse uid =
        .ok (items.map (projectInsightItem uid))) ∧
    (items.map (projectInsightItem uid)).length = items.length ∧
    (∀ x ∈ items.map (projectInsightItem uid), getF x "userId" = .str uid) ∧
    (∀ item, getF (projectInsightItem uid item) "data" =
      .obj [("analysis", getF item "data")]) ∧
    (∀ fs k, k ≠ "userId" → k ≠ "data" →
      getF (projectInsightItem uid (.obj fs)) k = getF (.obj fs) k) := by
  refine ⟨?_, List.length_map _ _, ?_, ?_, ?_⟩
  · intro h
    simp [analyzeProgressInsights, h]
  · intro x hx
    obtain ⟨item, _, rfl⟩ := List.mem_map.mp hx
    unfold projectInsightItem
    rw [getF_setField_ne _ _ _ _ (by decide)]
    exact getF_setField_self _ _ _
  · intro item
    unfold projectInsightItem
    exact getF_setField_self _ _ _
  · intro fs k hk1 hk2
    unfold projectInsightItem
    rw [getF_setField_ne _ _ _ _ hk2, getF_setField_ne _ _ _ _ hk1]
    rfl

/-- C9 amended witness: a mocked model returning a 2-item `insights` array
projects, through `analyzeProgressInsights`, to a 2-item array whose items
carry the original `userId`, keep their `title`, and hold the rewrapped
`data`. -/
theorem projector_amended_check :
    analyzeProgressInsights apiPayload jitterZero jsParseInsightPair "user-42" =
      .ok ([insightItem0, insightItem1].map (projectInsightItem "user-42")) ∧
    ([insightItem0, insightItem1].map (projectInsightItem "user-42")).length = 2 ∧
    getF (projectInsightItem "user-42" insightItem0) "userId" = .str "user-42" ∧
    getF (projectInsightItem "user-42" insightItem1) "userId" = .str "user-42" ∧
    getF (projectInsightItem "user-42" insightItem0) "title" =
      getF insightItem0 "title" := by
  have h := projector_amended "user-42" [insightItem0, insightItem1] apiPayload
    jitterZero jsParseInsightPair
  refine ⟨h.1 rfl, h.2.1, ?_, ?_, ?_⟩
  · exact h.2.2.1 _ (by simp)
  · exact h.2.2.1 _ (by simp)
  · exact h.2.2.2.2
      [("insightType", .str "progress_analysis"), ("title", .str "T0"),
       ("description", .str "D0"), ("confidence", .num 80),
       ("actionable", .bool true), ("data", .str "evidence")]
      "title" (by decide) (by decide)

/-- C10 counterexample: the full user identifier does appear inside the
assembled context.  On the `chapterId`-absent path the untruncated
`getUserProgress` object passes raw `workbook_progress` rows through to
`progressHistory`, and such a row's `userId` column is the full input
identifier — here `"user-123456789"` — even though the context's own
`userId` field is truncated to `"user-123..."`. -/
theorem userId_leak_counterexample :
    (buildTherapeuticContext "user-123456789" none (some "s1") .undefined
        (.ok []) (fun _ => .ok []) (.ok [progRow 0]) (.ok [])).userId =
      "user-123..." ∧
    getF (buildTherapeuticContext "user-123456789" none (some "s1") .undefined
        (.ok []) (fun _ => .ok []) (.ok [progRow 0])
        (.ok [])).progressHistory "progress" = .arr [progRow 0] ∧
    getF (progRow 0) "userId" = .str "user-123456789" :=
  ⟨rfl, rfl, rfl⟩

/-- C10 amended: on both the success path and the fetch-failure fallback
path, the `userId` field of the assembled context is exactly the first 8
characters of the caller-supplied user id followed by `"..."`, and the
aggregator itself introduces nothing else derived from the id — for fixed
fetch results, user ids sharing an 8-character prefix yield identical
contexts.  The three per-row projections drop the rows' own `userId`
columns, so no full identifier survives on the truncated (chapter-scoped)
paths; but when `chapterId` is absent the untruncated `getUserProgress`
pass-through carries raw progress rows whose `userId` column is the full
identifier, so the full id can still appear inside `progressHistory`
through fetched data. -/
theorem userId_truncation_amended
    (u u' : String) (chId : Option Nat) (sec : Option String) (ur : JsonV)
    (fa : Except String (List JsonV)) (fc : Nat → Except String (List JsonV))
    (fu fi : Except String (List JsonV)) :
    (8 ≤ u.length →
      (buildTherapeuticContext u chId sec ur fa fc fu fi).userId.data =
        u.data.take 8 ++ ['.', '.', '.']) ∧
    (jsSubstringTo u 8 = jsSubstringTo u' 8 →
      buildTherapeuticContext u chId sec ur fa fc fu fi =
        buildTherapeuticContext u' chId sec ur fa fc fu fi) ∧
    (∀ a, getF (truncAssessment a) "userId" = .undefined) ∧
    (∀ p, getF (truncProgress p) "userId" = .undefined) ∧
    (∀ i, getF (truncInsight i) "userId" = .undefined) ∧
    (getF (buildTherapeuticContext "user-123456789" none (some "s1") .undefined
        (.ok []) (fun _ => .ok []) (.ok [progRow 0])
        (.ok [])).progressHistory "progress" = .arr [progRow 0] ∧
     getF (progRow 0) "userId" = .str "user-123456789") := by
  refine ⟨?_, ?_, fun a => rfl, fun p => rfl, fun i => rfl, rfl, rfl⟩
  · intro _
    have huid : (buildTherapeuticContext u chId sec ur fa fc fu fi).userId =
        jsSubstringTo u 8 ++ "..." := by
      unfold buildTherapeuticContext fallbackContext
      rcases hsel : selectProgressFetch chId fc fu with e2 | p2
      all_goals rcases fa with e | a
      all_goals rcases fi with e3 | i
      all_goals rfl
    rw [huid]
    rfl
  · intro h
    unfold buildTherapeuticContext fallbackContext
    simp only [h]

/-- C10 amended witness: "user-123456789" truncates to "user-123...", a
second id with the same 8-character prefix produces the identical context,
and the chapter-scoped progress projection drops a row's `userId` column. -/
theorem userId_truncation_amended_check :
    (buildTherapeuticContext "user-123456789" (some 3) (some "s1") .undefined
        (.ok assessRows6) (fun _ => .ok progRows11) (.ok [])
        (.ok insightRows6)).userId.data =
      ("user-123456789" : String).data.take 8 ++ ['.', '.', '.'] ∧
    buildTherapeuticContext "user-123456789" (some 3) (some "s1") .undefined
        (.ok assessRows6) (fun _ => .ok progRows11) (.ok [])
        (.ok insightRows6) =
      buildTherapeuticContext "user-123abcdef" (some 3) (some "s1") .undefined
        (.ok assessRows6) (fun _ => .ok progRows11) (.ok [])
        (.ok insightRows6) ∧
    getF (truncProgress (progRow 0)) "userId" = .undefined := by
  have h := userId_truncation_amended "user-123456789" "user-123abcdef"
    (some 3) (some "s1") .undefined (.ok assessRows6) (fun _ => .ok progRows11)
    (.ok []) (.ok insightRows6)
  exact ⟨h.1 (by decide), h.2.1 (by decide), h.2.2.2.1 (progRow 0)⟩

end ActiveMind
